import Mathlib

/-!
Verification of the Quote Lifecycle & Integrity subsystem of the
3D-Printing-Quote-Engine repository (src/app.py, src/quotes_store.py,
src/security.py, src/config.py), as a shallow embedding in Lean 4.

Machine integers are modelled as `Int`/`Nat` (Python ints are unbounded, so no
wraparound arises).  JSON values are modelled by `JVal` (floats are not
modelled; no claim depends on them).  The HMAC-SHA256 MAC and the SHA-256
hash of `security.py` are modelled as function parameters `mac`/`sha`; the
serialized message each is applied to is embedded faithfully, so
collision-freeness assumptions appear as explicit injectivity hypotheses
where a claim needs them.
-/

namespace QuoteEngine


def digitChar (d : Nat) : Char := Char.ofNat (48 + d)

theorem digitChar_toNat {d : Nat} (h : d < 10) : (digitChar d).toNat = 48 + d := by
  interval_cases d <;> decide

def natStrGo : Nat → Nat → List Char → List Char
  | 0, _, acc => acc
  | fuel + 1, n, acc =>
    if n < 10 then digitChar n :: acc
    else natStrGo fuel (n / 10) (digitChar (n % 10) :: acc)

def parseDec : Nat → List Char → Nat
  | a, [] => a
  | a, c :: cs => parseDec (10 * a + (c.toNat - 48)) cs

theorem parseDec_natStrGo :
    ∀ fuel, ∀ n ≤ fuel, ∀ acc a,
      ∃ k, n < 10 ^ k ∧
        parseDec a (natStrGo (fuel + 1) n acc) = parseDec (a * 10 ^ k + n) acc := by
  intro fuel
  induction fuel with
  | zero =>
    intro n hn acc a
    have hn0 : n = 0 := Nat.le_zero.mp hn
    subst hn0
    refine ⟨1, by norm_num, ?_⟩
    rw [show natStrGo 1 0 acc = digitChar 0 :: acc from rfl]
    rw [show parseDec a (digitChar 0 :: acc) = parseDec (10 * a + ((digitChar 0).toNat - 48)) acc from rfl]
    rw [digitChar_toNat (by norm_num)]
    have h1 : a * 10 ^ 1 = 10 * a := by ring
    rw [h1]
  | succ f ih =>
    intro n hn acc a
    by_cases h10 : n < 10
    · refine ⟨1, by omega, ?_⟩
      rw [show natStrGo (f + 1 + 1) n acc = if n < 10 then digitChar n :: acc else natStrGo (f+1) (n / 10) (digitChar (n % 10) :: acc) from rfl]
      rw [if_pos h10]
      rw [show parseDec a (digitChar n :: acc) = parseDec (10 * a + ((digitChar n).toNat - 48)) acc from rfl]
      rw [digitChar_toNat h10]
      have h1 : a * 10 ^ 1 = 10 * a := by ring
      rw [h1]
      congr 1
      omega
    · have hdiv : n / 10 ≤ f := by omega
      obtain ⟨k, hk, hparse⟩ := ih (n / 10) hdiv (digitChar (n % 10) :: acc) a
      have hmod : n % 10 < 10 := Nat.mod_lt _ (by omega)
      refine ⟨k + 1, ?_, ?_⟩
      · have heq : n = 10 * (n / 10) + n % 10 := (Nat.div_add_mod n 10).symm
        have hp : 10 ^ (k+1) = 10 * 10 ^ k := by ring
        omega
      · have hstep : natStrGo (f + 1 + 1) n acc
            = natStrGo (f + 1) (n / 10) (digitChar (n % 10) :: acc) := by
          rw [show natStrGo (f + 1 + 1) n acc = if n < 10 then digitChar n :: acc else natStrGo (f+1) (n / 10) (digitChar (n % 10) :: acc) from rfl]
          rw [if_neg h10]
        rw [hstep, hparse]
        rw [show parseDec (a * 10 ^ k + n / 10) (digitChar (n % 10) :: acc)
            = parseDec (10 * (a * 10 ^ k + n / 10) + ((digitChar (n % 10)).toNat - 48)) acc from rfl]
        rw [digitChar_toNat hmod]
        have h1 : a * 10 ^ (k + 1) = 10 * (a * 10 ^ k) := by ring
        rw [h1]
        congr 1
        have heq : n = 10 * (n / 10) + n % 10 := (Nat.div_add_mod n 10).symm
        omega

def natStr (n : Nat) : String := ⟨natStrGo (n + 1) n []⟩

def intStr (i : Int) : String :=
  if i < 0 then "-" ++ natStr i.natAbs else natStr i.natAbs

theorem parseDec_natStr (n : Nat) : parseDec 0 (natStr n).data = n := by
  obtain ⟨k, _, h⟩ := parseDec_natStrGo n n le_rfl [] 0
  have h0 : (natStr n).data = natStrGo (n + 1) n [] := rfl
  rw [h0, h]
  rw [show parseDec (0 * 10 ^ k + n) [] = 0 * 10 ^ k + n from rfl]
  omega

theorem natStr_injective : Function.Injective natStr := by
  intro m n h
  have hd : (natStr m).data = (natStr n).data := by rw [h]
  have hm := parseDec_natStr m
  rw [hd, parseDec_natStr n] at hm
  omega

theorem natStrGo_eq_nil : ∀ fuel n acc, natStrGo fuel n acc = [] → acc = [] := by
  intro fuel
  induction fuel with
  | zero => intro n acc h; exact h
  | succ f ih =>
    intro n acc h
    by_cases h10 : n < 10
    · rw [show natStrGo (f+1) n acc = if n < 10 then digitChar n :: acc else natStrGo f (n / 10) (digitChar (n % 10) :: acc) from rfl, if_pos h10] at h
      exact absurd h (List.cons_ne_nil _ _)
    · rw [show natStrGo (f+1) n acc = if n < 10 then digitChar n :: acc else natStrGo f (n / 10) (digitChar (n % 10) :: acc) from rfl, if_neg h10] at h
      exact absurd (ih _ _ h) (List.cons_ne_nil _ _)

theorem natStrGo_mem_digit :
    ∀ fuel n acc c, c ∈ natStrGo fuel n acc →
      c ∈ acc ∨ (48 ≤ c.toNat ∧ c.toNat ≤ 57) := by
  intro fuel
  induction fuel with
  | zero => intro n acc c h; exact Or.inl h
  | succ f ih =>
    intro n acc c h
    by_cases h10 : n < 10
    · rw [show natStrGo (f+1) n acc = if n < 10 then digitChar n :: acc else natStrGo f (n / 10) (digitChar (n % 10) :: acc) from rfl, if_pos h10] at h
      rcases List.mem_cons.mp h with h | h
      · subst h; right; rw [digitChar_toNat h10]; omega
      · exact Or.inl h
    · rw [show natStrGo (f+1) n acc = if n < 10 then digitChar n :: acc else natStrGo f (n / 10) (digitChar (n % 10) :: acc) from rfl, if_neg h10] at h
      rcases ih _ _ _ h with h | h
      · rcases List.mem_cons.mp h with h | h
        · subst h
          right
          rw [digitChar_toNat (Nat.mod_lt _ (by omega))]
          omega
        · exact Or.inl h
      · exact Or.inr h

theorem natStr_head_digit (n : Nat) :
    ∃ c t, (natStr n).data = c :: t ∧ 48 ≤ c.toNat ∧ c.toNat ≤ 57 := by
  cases hd : (natStr n).data with
  | nil =>
    exfalso
    have h0 : natStrGo (n + 1) n [] = [] := hd
    have := natStrGo_eq_nil (n + 1) n [] h0
    have h1 : natStrGo (n+1) n [] ≠ [] := by
      rw [show natStrGo (n+1) n [] = if n < 10 then digitChar n :: [] else natStrGo n (n / 10) (digitChar (n % 10) :: []) from rfl]
      by_cases h10 : n < 10
      · rw [if_pos h10]; exact List.cons_ne_nil _ _
      · rw [if_neg h10]
        intro hc
        exact absurd (natStrGo_eq_nil _ _ _ hc) (List.cons_ne_nil _ _)
    exact h1 h0
  | cons c t =>
    refine ⟨c, t, rfl, ?_⟩
    have hc : c ∈ natStrGo (n + 1) n [] := by
      have hmem : c ∈ (natStr n).data := by rw [hd]; exact List.mem_cons_self c t
      exact hmem
    rcases natStrGo_mem_digit (n + 1) n [] c hc with h | h
    · exact absurd h (List.not_mem_nil c)
    · exact h

theorem strAppend_cancel_left {a b c : String} (h : a ++ b = a ++ c) : b = c := by
  cases a with | mk la =>
  cases b with | mk lb =>
  cases c with | mk lc =>
  have hd : la ++ lb = la ++ lc := congrArg String.data h
  have hbc : lb = lc := List.append_cancel_left hd
  rw [hbc]

theorem strAppend_cancel_right {a b c : String} (h : a ++ c = b ++ c) : a = b := by
  cases a with | mk la =>
  cases b with | mk lb =>
  cases c with | mk lc =>
  have hd : la ++ lc = lb ++ lc := congrArg String.data h
  have hab : la = lb := List.append_cancel_right hd
  rw [hab]

theorem intStr_injective : Function.Injective intStr := by
  intro i j h
  unfold intStr at h
  have hdash : ('-' : Char).toNat = 45 := by decide
  by_cases hi : i < 0 <;> by_cases hj : j < 0
  · rw [if_pos hi, if_pos hj] at h
    have := natStr_injective (strAppend_cancel_left h)
    omega
  · rw [if_pos hi, if_neg hj] at h
    exfalso
    obtain ⟨c, t, hct, hlo, hhi⟩ := natStr_head_digit j.natAbs
    have hdata : ('-' :: (natStr i.natAbs).data) = c :: t := by
      have h1 : ("-" ++ natStr i.natAbs).data = '-' :: (natStr i.natAbs).data := rfl
      rw [← h1, h, hct]
    have hc : ('-' : Char) = c := by injection hdata
    rw [← hc] at hlo
    omega
  · rw [if_neg hi, if_pos hj] at h
    exfalso
    obtain ⟨c, t, hct, hlo, hhi⟩ := natStr_head_digit i.natAbs
    have hdata : c :: t = ('-' :: (natStr j.natAbs).data) := by
      have h1 : ("-" ++ natStr j.natAbs).data = '-' :: (natStr j.natAbs).data := rfl
      rw [← hct, h, h1]
    have hc : c = ('-' : Char) := by injection hdata
    rw [hc] at hlo
    omega
  · rw [if_neg hi, if_neg hj] at h
    have := natStr_injective h
    omega

/-! ## List-based string helpers (kernel-reducible equivalents of
Python's string operations) -/

/-- Lexicographic code-point comparison of character lists (Python `<` on
strings). -/
def charsLt : List Char → List Char → Bool
  | [], [] => false
  | [], _ :: _ => true
  | _ :: _, [] => false
  | a :: as, b :: bs =>
    if a.toNat < b.toNat then true
    else if b.toNat < a.toNat then false
    else charsLt as bs

/-- `a <= b` on strings by code point, as Python's sort comparisons. -/
def strLeB (a b : String) : Bool := !(charsLt b.data a.data)

/-- Python `str.lower` (ASCII range; the config keys and statuses the
lifecycle compares are ASCII). -/
def pyLowerChar (c : Char) : Char :=
  if 65 ≤ c.toNat && c.toNat ≤ 90 then Char.ofNat (c.toNat + 32) else c

def isPySpace (c : Char) : Bool :=
  c.toNat = 32 || c.toNat = 9 || c.toNat = 10 || c.toNat = 13 || c.toNat = 11 || c.toNat = 12

/-- Python `str.strip()` (default whitespace). -/
def pyStrip (l : List Char) : List Char :=
  ((l.dropWhile isPySpace).reverse.dropWhile isPySpace).reverse

/-- `s.strip().lower()` of src/app.py's param normalization. -/
def pyNorm (s : String) : String := ⟨(pyStrip s.data).map pyLowerChar⟩

/-! ## JSON values and their Python serializations -/

/- A JSON value as decoded by Python's `json.load`, with arrays and objects
as mutual inductives so that every function below is plain structural
recursion.  Floats are not modelled; no claim depends on them. -/
mutual
/-- A JSON value as decoded by Python's `json.load`. -/
inductive JVal where
  | jNull
  | jBool (b : Bool)
  | jInt (n : Int)
  | jStr (s : String)
  | jArr (xs : JArr)
  | jObj (kvs : JObj)
inductive JArr where
  | anil
  | acons (v : JVal) (t : JArr)
inductive JObj where
  | onil
  | ocons (k : String) (v : JVal) (t : JObj)
end

def JArr.ofList : List JVal → JArr
  | [] => .anil
  | v :: t => .acons v (JArr.ofList t)

def JObj.ofList : List (String × JVal) → JObj
  | [] => .onil
  | (k, v) :: t => .ocons k v (JObj.ofList t)

def JArr.isNil : JArr → Bool
  | .anil => true
  | .acons _ _ => false

def JObj.isNil : JObj → Bool
  | .onil => true
  | .ocons _ _ _ => false

/-- Python truthiness of a JSON-decoded value. -/
def jTruthy : JVal → Bool
  | .jNull => false
  | .jBool b => b
  | .jInt n => n != 0
  | .jStr s => s != ""
  | .jArr xs => !xs.isNil
  | .jObj kvs => !kvs.isNil

def hexDigit (n : Nat) : Char := if n < 10 then digitChar n else Char.ofNat (87 + n)

/-- Escaping of one character by `json.dumps` with `ensure_ascii=False`. -/
def jsonEscapeChar (c : Char) : String :=
  if c = Char.ofNat 34 then String.mk [Char.ofNat 92, Char.ofNat 34]
  else if c = Char.ofNat 92 then String.mk [Char.ofNat 92, Char.ofNat 92]
  else if c = Char.ofNat 10 then String.mk [Char.ofNat 92, Char.ofNat 110]
  else if c = Char.ofNat 13 then String.mk [Char.ofNat 92, Char.ofNat 114]
  else if c = Char.ofNat 9 then String.mk [Char.ofNat 92, Char.ofNat 116]
  else if c.toNat = 8 then String.mk [Char.ofNat 92, Char.ofNat 98]
  else if c.toNat = 12 then String.mk [Char.ofNat 92, Char.ofNat 102]
  else if c.toNat < 32 then
    "\\u00" ++ String.mk [hexDigit (c.toNat / 16), hexDigit (c.toNat % 16)]
  else String.singleton c

/-- A JSON string literal as emitted by `json.dumps(..., ensure_ascii=False)`. -/
def jsonStr (s : String) : String :=
  "\"" ++ String.join (s.data.map jsonEscapeChar) ++ "\""

def insertPair (x : String × String) : List (String × String) → List (String × String)
  | [] => [x]
  | y :: ys => if strLeB x.1 y.1 then x :: y :: ys else y :: insertPair x ys

/-- Key-sorting of an object's entries, as `json.dumps(..., sort_keys=True)`
(Python compares strings by code point, as Lean's `≤` does). -/
def sortPairs (l : List (String × String)) : List (String × String) :=
  l.foldr insertPair []

mutual
/-- `_stable_json` (src/security.py line 10):
`json.dumps(obj, separators=(",", ":"), sort_keys=True, ensure_ascii=False)`.
Each object's values are serialized in place and the rendered entries are
then key-sorted, which agrees with sorting before serializing. -/
def stable_json : JVal → String
  | .jNull => "null"
  | .jBool b => cond b "true" "false"
  | .jInt n => intStr n
  | .jStr s => jsonStr s
  | .jArr xs => "[" ++ String.intercalate "," (stableJsonA xs) ++ "]"
  | .jObj kvs =>
    "\x7b" ++ String.intercalate ","
      ((sortPairs (stableJsonO kvs)).map (fun kv => jsonStr kv.1 ++ ":" ++ kv.2)) ++ "\x7d"
def stableJsonA : JArr → List String
  | .anil => []
  | .acons v t => stable_json v :: stableJsonA t
def stableJsonO : JObj → List (String × String)
  | .onil => []
  | .ocons k v t => (k, stable_json v) :: stableJsonO t
end

def singleQuote : String := String.singleton (Char.ofNat 39)

def pyReprStrEsc (c : Char) : String :=
  if c = Char.ofNat 92 then String.mk [Char.ofNat 92, Char.ofNat 92]
  else if c = Char.ofNat 39 then String.mk [Char.ofNat 92, Char.ofNat 39]
  else String.singleton c

/-- Python `repr` of a string, modelled as single-quoted with backslash and
quote escaping.  (CPython switches to double quotes when the string contains
a single quote but no double quote, and escapes non-printables; no claim
depends on those cases.) -/
def pyReprStr (s : String) : String :=
  singleQuote ++ String.join (s.data.map pyReprStrEsc) ++ singleQuote

mutual
/-- Python `repr` of a JSON-decoded value (what `str` uses on containers). -/
def pyRepr : JVal → String
  | .jNull => "None"
  | .jBool b => cond b "True" "False"
  | .jInt n => intStr n
  | .jStr s => pyReprStr s
  | .jArr xs => "[" ++ String.intercalate ", " (pyReprA xs) ++ "]"
  | .jObj kvs =>
    "\x7b" ++ String.intercalate ", "
      ((pyReprO kvs).map (fun kv => pyReprStr kv.1 ++ ": " ++ kv.2)) ++ "\x7d"
def pyReprA : JArr → List String
  | .anil => []
  | .acons v t => pyRepr v :: pyReprA t
def pyReprO : JObj → List (String × String)
  | .onil => []
  | .ocons k v t => (k, pyRepr v) :: pyReprO t
end

/-- Python `str()` of a JSON-decoded value. -/
def pyStr : JVal → String
  | .jNull => "None"
  | .jBool b => cond b "True" "False"
  | .jInt n => intStr n
  | .jStr s => s
  | .jArr xs => pyRepr (.jArr xs)
  | .jObj kvs => pyRepr (.jObj kvs)

/-! ## Raw and normalized quote parameters -/

/-- A scalar value appearing in a raw params field. -/
inductive PyVal where
  | vNone
  | vBool (b : Bool)
  | vInt (n : Int)
  | vStr (s : String)

def pyValJson : PyVal → String
  | .vNone => "null"
  | .vBool b => cond b "true" "false"
  | .vInt n => intStr n
  | .vStr s => jsonStr s

def parsePyIntDigits (l : List Char) : Option Nat :=
  if l.isEmpty then none
  else if l.all (fun c => 48 ≤ c.toNat && c.toNat ≤ 57) then some (parseDec 0 l)
  else none

/-- Python `int(s)` on a string: optional surrounding whitespace, optional
sign, one or more ASCII digits (underscore grouping is not modelled). -/
def parsePyInt (s : String) : Option Int :=
  match pyStrip s.data with
  | '-' :: rest => (parsePyIntDigits rest).map (fun n => -(n : Int))
  | '+' :: rest => (parsePyIntDigits rest).map (fun n => (n : Int))
  | l => (parsePyIntDigits l).map (fun n => (n : Int))

/-- Python `int(x)` on a JSON-decoded scalar; `None` (a `TypeError`) and
unparsable strings are `none`.  A Python `bool` is an `int` subclass. -/
def pyToInt : PyVal → Option Int
  | .vNone => none
  | .vBool b => some (cond b 1 0)
  | .vInt n => some n
  | .vStr s => parsePyInt s

/-- The raw `params` mapping a caller may supply (and the shape the store may
hold).  A field is `none` when the key is absent or null.  The source also
tolerates arbitrary extra keys, and non-string material/quality/printer
values make it raise `AttributeError` (surfacing as a 500); neither is
modelled, as no claim depends on them. -/
structure RawParams where
  material : Option String := none
  quality : Option String := none
  printer : Option String := none
  qty : Option PyVal := none
  quantity : Option PyVal := none
  infill_density : Option PyVal := none

/-- `_stable_json` of a raw params mapping: compact separators, keys in
sorted order (infill_density < material < printer < qty < quality <
quantity), absent keys omitted. -/
def stableJsonRaw (p : RawParams) : String :=
  "\x7b" ++ String.intercalate ","
    ([("infill_density", p.infill_density.map pyValJson),
      ("material", p.material.map jsonStr),
      ("printer", p.printer.map jsonStr),
      ("qty", p.qty.map pyValJson),
      ("quality", p.quality.map jsonStr),
      ("quantity", p.quantity.map pyValJson)].filterMap
      (fun kv => kv.2.map (fun v => jsonStr kv.1 ++ ":" ++ v))) ++ "\x7d"

/-- The normalized params produced by `validate_quote_params`. -/
structure Params where
  material : String
  quality : String
  printer : String
  qty : Int
  infill_density : Int

/-- The normalized params as the dict stored back into the quote
(keys material, quality, printer, qty, infill_density). -/
def Params.toRaw (p : Params) : RawParams :=
  { material := some p.material, quality := some p.quality,
    printer := some p.printer, qty := some (.vInt p.qty),
    quantity := none, infill_density := some (.vInt p.infill_density) }

/-! ## Configuration -/

structure PrinterCfg where
  enabled : Option Bool := none

/-- The configuration surface the lifecycle consults.  `materials` and
`qualities` list the keys whose config entries are present and truthy
(matching `not config.get_material(m)` etc. in the source); `printers` maps
printer keys to their `enabled` flag (`p.get("enabled", True)`).  `version`
models `Config.get_config_version()`, a deterministic truncated-sha256
fingerprint of the whole configuration; the lifecycle uses it only up to
equality, so it is carried as an opaque string. -/
structure Config where
  materials : List String := []
  qualities : List String := []
  printers : List (String × PrinterCfg) := []
  version : String := ""

/-- `validate_quote_params` (src/app.py lines 56-105): normalizes
material/quality/printer, converts qty/infill, and checks each condition in
source order, reporting the first offending field. -/
def validate_quote_params (cfg : Config) (p : RawParams) : Except String Params :=
  let material := pyNorm (p.material.getD "")
  let quality := pyNorm (p.quality.getD "")
  let printer0 := p.printer.getD ""
  let printer := pyNorm (if printer0 = "" then "prusa_mk3s" else printer0)
  match pyToInt (p.qty.getD (p.quantity.getD (.vInt 1))) with
  | none => .error "qty debe ser un entero"
  | some qty =>
    if qty < 1 then .error "qty debe ser >= 1"
    else
      match pyToInt (p.infill_density.getD (.vInt 20)) with
      | none => .error "infill_density debe ser un entero"
      | some infill =>
        if infill < 5 ∨ infill > 100 then .error "infill_density debe estar entre 5 y 100"
        else if material == "" || !(cfg.materials.contains material) then
          .error ("material inválido: " ++ (if material = "" then "(vacío)" else material))
        else if quality == "" || !(cfg.qualities.contains quality) then
          .error ("calidad inválida: " ++ (if quality = "" then "(vacío)" else quality))
        else
          match cfg.printers.find? (fun kv => kv.1 == printer) with
          | none => .error ("impresora inválida o deshabilitada: " ++ printer)
          | some pc =>
            if !(pc.2.enabled.getD true) then
              .error ("impresora inválida o deshabilitada: " ++ printer)
            else .ok ⟨material, quality, printer, qty, infill⟩

/-! ## The persisted quote record and the Signer -/

/-- The persisted quote record: the keys the lifecycle reads or writes, with
`none` marking an absent key.  `expiresAtTs` is kept as a raw JSON value
because `QuotesStore.is_expired` type-checks it; the timestamps the code
writes are always integers. -/
structure Quote where
  quoteId : String := ""
  status : String := ""
  createdAtTs : Option Int := none
  refreshedAtTs : Option Int := none
  lockedAtTs : Option Int := none
  configVersion : Option String := none
  requiredConfigVersion : Option String := none
  params : Option RawParams := none
  computed : JVal := .jObj .onil
  price : Option JVal := none
  currency : Option JVal := none
  expiresAtTs : Option JVal := none
  error : Option String := none
  signature : String := ""

/-- `str(payload.get(k, ""))` for an optional JSON-valued key. -/
def strOfOpt : Option JVal → String
  | none => ""
  | some v => pyStr v

/-- `_stable_json(payload.get("params", ...))` with the empty-dict default. -/
def paramsJson : Option RawParams → String
  | none => "\x7b\x7d"
  | some p => stableJsonRaw p

/-- The eight signed components, in source order (src/security.py 17-26). -/
def msgParts (sha : String → String) (q : Quote) : List String :=
  [q.quoteId, q.status, strOfOpt q.price, strOfOpt q.currency,
   q.configVersion.getD "", strOfOpt q.expiresAtTs,
   sha (paramsJson q.params), sha (stable_json q.computed)]

/-- `"|".join`. -/
def joinBar : List String → String
  | [] => ""
  | [s] => s
  | s :: t => s ++ ("|" ++ joinBar t)

/-- The byte string `sign_quote` feeds to the MAC. -/
def sigMessage (sha : String → String) (q : Quote) : String := joinBar (msgParts sha q)

/-- `sign_quote` (src/security.py): a keyed MAC over the message; the
HMAC-SHA256 instance is the parameter `mac`, the SHA-256 used for the
params/computed digests is the parameter `sha`. -/
def sign_quote (mac sha : String → String) (q : Quote) : String := mac (sigMessage sha q)

/-- `verify_quote` (src/security.py): recompute and compare
(`hmac.compare_digest` is equality on equal-producing inputs). -/
def verify_quote (mac sha : String → String) (q : Quote) (signature : String) : Bool :=
  sign_quote mac sha q == signature

/-! ## The quote store -/

inductive DiskEntry where
  | missing
  | corrupt
  | record (q : Quote)

/-- The quotes directory: one entry per identifier.  `corrupt` stands for a
record file whose JSON fails to parse or that cannot be read. -/
def Fs : Type := String → DiskEntry

/-- `QuotesStore.save`: an atomic replace of the record at `id`. -/
def saveFs (fs : Fs) (id : String) (q : Quote) : Fs :=
  fun s => if s = id then .record q else fs s

namespace QuotesStore

def isHexLower (c : Char) : Bool :=
  (48 ≤ c.toNat && c.toNat ≤ 57) || (97 ≤ c.toNat && c.toNat ≤ 102)

/-- `QUOTE_ID_RE` of src/quotes_store.py: `q_` followed by exactly 24
lowercase hex digits. -/
def validQuoteId (s : String) : Bool :=
  match s.data with
  | c0 :: c1 :: rest => c0 == 'q' && c1 == '_' && rest.length == 24 && rest.all isHexLower
  | _ => false

/-- `QuotesStore.load`: a malformed id is rejected before any storage access
(`quote_dir` raises, caught to `None`); a missing or corrupt record yields
the same not-found result `none`. -/
def load (fs : Fs) (id : String) : Option Quote :=
  if validQuoteId id then
    match fs id with
    | .record q => some q
    | _ => none
  else none

/-- `QuotesStore.is_expired`: true only for an `int` `expiresAtTs` strictly
in the past.  A JSON boolean counts as an `int` (`isinstance(True, int)`
holds in Python). -/
def is_expired (now : Int) (q : Quote) : Bool :=
  match q.expiresAtTs with
  | some (.jInt n) => n < now
  | some (.jBool b) => (cond b 1 0 : Int) < now
  | _ => false

end QuotesStore

/-! ## Lifecycle endpoints -/

/-- Ambient request context: the repository clock (`quotes_store.now()`), the
environment TTLs (`QUOTE_TTL_SECONDS`, default 1800, and
`QUOTE_LOCK_TTL_SECONDS`, default 600), the live configuration, and the
Signer's MAC/hash functions. -/
structure Env where
  now : Int
  ttl : Int
  lock_ttl : Int
  cfg : Config
  mac : String → String
  sha : String → String

/-- An endpoint outcome: a JSON success body carrying a quote, or an error
body, each with its HTTP status code. -/
inductive Resp where
  | ok (code : Nat) (quote : Quote)
  | err (code : Nat) (msg : String)

/-- `d.get(k)` on a JSON object (None when the key is absent). -/
def dictGet : JObj → String → JVal
  | .onil, _ => .jNull
  | .ocons k v t, key => if k == key then v else dictGet t key

/-- Python `a or b`. -/
def pyOrV (a b : JVal) : JVal := if jTruthy a then a else b

/-- `POST /api/quotes` (src/app.py `create_quote`).  The transport-level
payload unwrapping (`params` / `print_details` / `printDetails`, and
`computed` / `quote` / `breakdown`) is outside the model: `raw` is the
extracted params mapping and `computedIn` the extracted computed mapping.
`newId` stands for the generated `quotes_store.new_id()`; a save on an id
not matching the pattern raises `ValueError`, caught by the handler's
`except ValueError` as a 400. -/
def create_quote (e : Env) (fs : Fs) (newId : String) (raw : RawParams)
    (computedIn : JObj) : Resp × Fs :=
  match validate_quote_params e.cfg raw with
  | .error ve => (.err 400 ve, fs)
  | .ok p =>
    let price : JVal := pyOrV (dictGet computedIn "price")
      (pyOrV (dictGet computedIn "total_price") (dictGet computedIn "totalPrice"))
    let currency : JVal := pyOrV (dictGet computedIn "currency")
      (pyOrV (dictGet computedIn "currency_symbol") (.jStr "EUR"))
    let q0 : Quote :=
      { quoteId := newId, status := "estimated",
        createdAtTs := some e.now,
        expiresAtTs := some (.jInt (e.now + e.ttl)),
        configVersion := some e.cfg.version,
        params := some p.toRaw,
        computed := .jObj computedIn,
        price := some price,
        currency := some currency }
    let q1 : Quote := { q0 with signature := sign_quote e.mac e.sha q0 }
    if QuotesStore.validQuoteId newId then (.ok 201 q1, saveFs fs newId q1)
    else (.err 400 "invalid quote id", fs)

/-- `GET /api/quotes/<quote_id>` (src/app.py `get_quote`): lazy expiry on
access — an expired record is demoted, re-signed and re-persisted. -/
def get_quote (e : Env) (fs : Fs) (id : String) : Resp × Fs :=
  match QuotesStore.load fs id with
  | none => (.err 404 "No encontrado", fs)
  | some q =>
    if QuotesStore.is_expired e.now q then
      let q1 : Quote := { q with status := "expired" }
      let q2 : Quote := { q1 with signature := sign_quote e.mac e.sha q1 }
      (.ok 200 q2, saveFs fs id q2)
    else (.ok 200 q, fs)

/-- `POST /api/quotes/<quote_id>/refresh` (src/app.py `refresh_quote`).
`extendTtl` is `(request.get_json() or ...).get("extendTtl", False)`. -/
def refresh_quote (e : Env) (fs : Fs) (id : String) (extendTtl : Bool) : Resp × Fs :=
  match QuotesStore.load fs id with
  | none => (.err 404 "No encontrado", fs)
  | some q =>
    if q.status = "locked" then (.err 409 "El presupuesto está bloqueado", fs)
    else
      match validate_quote_params e.cfg (q.params.getD {}) with
      | .error ve =>
          let q1 : Quote := { q with
          status := "recalc_required",
          error := some ("parámetros inválidos: " ++ ve),
          computed := .jObj .onil,
          price := some .jNull }
        let q2 : Quote := { q1 with signature := sign_quote e.mac e.sha q1 }
        (.ok 200 q2, saveFs fs id q2)
      | .ok p =>
        let qv : Quote := { q with params := some p.toRaw }
        if qv.configVersion ≠ some e.cfg.version then
          let q1 : Quote := { qv with
            status := "recalc_required",
            requiredConfigVersion := some e.cfg.version,
            computed := .jObj .onil,
            price := some .jNull,
            currency := some (qv.currency.getD (.jStr "EUR")),
            refreshedAtTs := some e.now,
            expiresAtTs := some (.jInt (e.now + e.ttl)) }
          let q2 : Quote := { q1 with signature := sign_quote e.mac e.sha q1 }
          (.ok 200 q2, saveFs fs id q2)
        else if QuotesStore.is_expired e.now qv then
          let q1 : Quote := { qv with
            status := "estimated",
            refreshedAtTs := some e.now,
            expiresAtTs := some (.jInt (e.now + e.ttl)) }
          let q2 : Quote := { q1 with signature := sign_quote e.mac e.sha q1 }
          (.ok 200 q2, saveFs fs id q2)
        else
          let q1 : Quote := { qv with
            expiresAtTs := if extendTtl then some (.jInt (e.now + e.ttl)) else qv.expiresAtTs,
            refreshedAtTs := some e.now }
          let q2 : Quote := { q1 with signature := sign_quote e.mac e.sha q1 }
          (.ok 200 q2, saveFs fs id q2)

/-- Python `a or b` on two optional strings (an empty string is falsy). -/
def strOr (a b : Option String) : Option String :=
  match a with
  | some s => if s = "" then b else some s
  | none => b

/-- `POST /api/quotes/<quote_id>/lock` (src/app.py `lock_quote`).
`providedSig` is `body.get("signature")`; an empty provided signature is
falsy and skips the check.  The two `quotes_store.now()` calls at lines 698
and 701 are modelled as the same instant `e.now`. -/
def lock_quote (e : Env) (fs : Fs) (id : String) (providedSig : Option String) : Resp × Fs :=
  match QuotesStore.load fs id with
  | none => (.err 404 "No encontrado", fs)
  | some q =>
    if QuotesStore.is_expired e.now q then (.err 410 "El presupuesto ha expirado", fs)
    else if (providedSig.getD "" != "") && !(verify_quote e.mac e.sha q (providedSig.getD "")) then
      (.err 400 "Firma no válida", fs)
    else if strOr q.requiredConfigVersion q.configVersion ≠ some e.cfg.version then
      (.err 409 "La configuración cambió; es necesario recalcular", fs)
    else
      let q1 : Quote := { q with
        status := "locked",
        lockedAtTs := some e.now,
        expiresAtTs := some (.jInt (e.now + e.lock_ttl)) }
      let q2 : Quote := { q1 with signature := sign_quote e.mac e.sha q1 }
      (.ok 200 q2, saveFs fs id q2)

/-- Line 562 of src/app.py: `limit = max(1, min(200, limit))`. -/
def clamp_limit (n : Int) : Int := max 1 (min 200 n)

/-- `GET /api/quotes` (src/app.py `list_quotes`).  After the admin check the
handler computes the clamped limit (modelled by `clamp_limit`) and then
calls `quotes_store.list(...)`; `QuotesStore` (src/quotes_store.py) defines
no `list` method, so the call raises `AttributeError`, which the handler's
`except Exception` turns into the generic 500 response, for every
caller-supplied limit. -/
def list_quotes (admin : Bool) (rawLimit : Option Int) : Resp :=
  if !admin then .err 401 "No autorizado"
  else
    let _limit := clamp_limit (rawLimit.getD 50)
    .err 500 "No se pudieron listar los presupuestos"


/-! ## Test fixtures and response projections -/

def respStatus : Resp → Option String
  | .ok _ q => some q.status
  | .err _ _ => none

def respCode : Resp → Nat
  | .ok c _ => c
  | .err c _ => c

def respQuote : Resp → Option Quote
  | .ok _ q => some q
  | .err _ _ => none

def respExpiry : Resp → Option (Option JVal)
  | .ok _ q => some q.expiresAtTs
  | .err _ _ => none

def respRequired : Resp → Option (Option String)
  | .ok _ q => some q.requiredConfigVersion
  | .err _ _ => none

def respErrField : Resp → Option (Option String)
  | .ok _ q => some q.error
  | .err _ _ => none

def entryStatus : DiskEntry → Option String
  | .record q => some q.status
  | _ => none

/-- The identity function used as the concrete MAC/hash instance in closed
counterexamples and witnesses (the statements proved with it transfer to any
MAC, since they only use that equal messages sign equally). -/
def idFun : String → String := fun s => s

def cfgFix : Config :=
  { materials := ["pla"], qualities := ["standard"],
    printers := [("prusa_mk3s", { enabled := some true })], version := "v1" }

def rawFix : RawParams :=
  { material := some "pla", quality := some "standard", printer := some "prusa_mk3s",
    qty := some (.vInt 1), infill_density := some (.vInt 20) }

def pFix : Params := ⟨"pla", "standard", "prusa_mk3s", 1, 20⟩

def eFix : Env :=
  { now := 1000, ttl := 1800, lock_ttl := 600, cfg := cfgFix,
    mac := idFun, sha := idFun }

def idFix : String := "q_000000000000000000000000"

def fsOf (q : Quote) : Fs := fun s => if s = idFix then .record q else .missing

/-- A locked quote that has not yet expired (fixture). -/
def qLockedFix : Quote :=
  { quoteId := idFix, status := "locked", configVersion := some "v1",
    params := some pFix.toRaw, expiresAtTs := some (.jInt 2000) }

/-- A locked quote one second past its expiry (fixture). -/
def qLockedExpiredFix : Quote :=
  { quoteId := idFix, status := "locked", configVersion := some "v1",
    params := some pFix.toRaw, expiresAtTs := some (.jInt 999) }

/-! ## C6 — Refresh on a locked quote -/

/-- C6: for every stored quote whose status is "locked", Refresh fails with
Conflict (409) and leaves the store entirely unchanged: the same `fs` is
returned, so no field is modified and nothing is re-persisted. -/
theorem C6_refresh_locked_conflict (e : Env) (fs : Fs) (id : String) (q : Quote)
    (extendTtl : Bool)
    (hload : QuotesStore.load fs id = some q) (hlock : q.status = "locked") :
    refresh_quote e fs id extendTtl = (.err 409 "El presupuesto está bloqueado", fs) := by
  simp only [refresh_quote, hload]
  rw [if_pos hlock]

theorem C6_witness :
    refresh_quote eFix (fsOf qLockedFix) idFix false
      = (.err 409 "El presupuesto está bloqueado", fsOf qLockedFix) :=
  C6_refresh_locked_conflict eFix (fsOf qLockedFix) idFix qLockedFix false rfl rfl

/-! ## C7 — Load: the not-found result and path safety -/

/-- The identifier is a single safe path component: joining it under the
storage root cannot leave the root (it contains no path separator, is not a
dot-segment, and is non-empty, hence not an absolute override). -/
def safePathComponent (s : String) : Prop :=
  s ≠ "" ∧ s ≠ "." ∧ s ≠ ".." ∧ ∀ c ∈ s.data, c ≠ '/' ∧ c ≠ '\\'

/-- C7: Load yields the same not-found result `none` in all three cases — a
malformed id (rejected before the store is consulted), a well-formed absent
id, and a corrupt/unreadable record — and every id passing the format check
is a safe path component under the storage root. -/
theorem C7_load_not_found (fs : Fs) (id : String) :
    (QuotesStore.validQuoteId id = false → QuotesStore.load fs id = none) ∧
    (fs id = .missing → QuotesStore.load fs id = none) ∧
    (fs id = .corrupt → QuotesStore.load fs id = none) ∧
    (QuotesStore.validQuoteId id = true → safePathComponent id) := by
  refine ⟨?_, ?_, ?_, ?_⟩
  · intro hv
    simp [QuotesStore.load, hv]
  · intro hm
    unfold QuotesStore.load
    rw [hm]
    split <;> rfl
  · intro hm
    unfold QuotesStore.load
    rw [hm]
    split <;> rfl
  · intro hv
    unfold QuotesStore.validQuoteId at hv
    cases hd : id.data with
    | nil => rw [hd] at hv; simp at hv
    | cons c0 t0 =>
      cases t0 with
      | nil => rw [hd] at hv; simp at hv
      | cons c1 rest =>
        rw [hd] at hv
        have hv2 : (c0 == 'q' && c1 == '_' && rest.length == 24
            && rest.all QuotesStore.isHexLower) = true := hv
        simp only [Bool.and_eq_true, beq_iff_eq] at hv2
        obtain ⟨⟨⟨hc0, hc1⟩, _hlen⟩, hhex⟩ := hv2
        have hne : ∀ s2 : String, s2.data ≠ c0 :: c1 :: rest → id ≠ s2 := by
          intro s2 hs2 heq
          rw [heq] at hd
          exact hs2 hd
        refine ⟨?_, ?_, ?_, ?_⟩
        · exact hne "" (by simp)
        · exact hne "." (by simp)
        · exact hne ".." (by simp [hc0])
        · intro c hc
          rw [hd] at hc
          rcases List.mem_cons.mp hc with h | h
          · subst h
            rw [hc0]
            constructor <;> decide
          · rcases List.mem_cons.mp h with h | h
            · subst h
              rw [hc1]
              constructor <;> decide
            · have hhc := List.all_eq_true.mp hhex c h
              simp only [QuotesStore.isHexLower, Bool.or_eq_true, Bool.and_eq_true,
                decide_eq_true_eq] at hhc
              have h47 : ('/' : Char).toNat = 47 := by decide
              have h92 : ('\\' : Char).toNat = 92 := by decide
              constructor <;> intro heq <;> subst heq <;>
                rcases hhc with ⟨h1, h2⟩ | ⟨h1, h2⟩ <;> omega


def fsEmptyC7 : Fs := fun _ => .missing

theorem C7_witness :
    QuotesStore.load (fsOf qLockedFix) "../../../etc/passwd" = none ∧
    QuotesStore.load fsEmptyC7 idFix = none ∧
    QuotesStore.load (fun _ => .corrupt) idFix = none ∧
    safePathComponent idFix := by
  refine ⟨(C7_load_not_found (fsOf qLockedFix) "../../../etc/passwd").1 (by decide),
    (C7_load_not_found fsEmptyC7 idFix).2.1 rfl,
    (C7_load_not_found (fun _ => .corrupt) idFix).2.2.1 rfl,
    (C7_load_not_found (fun _ => .corrupt) idFix).2.2.2 (by decide)⟩

/-! ## C10 — Expiry is strict and type-checked -/

/-- A quote at the exact expiry boundary (`expiresAtTs = now`), used to
witness the strictness of the comparison. -/
def qBoundaryFix : Quote :=
  { quoteId := idFix, status := "estimated", configVersion := some "v1",
    params := some pFix.toRaw, expiresAtTs := some (.jInt 1000) }

/-- C10: a record counts as expired only when `expiresAtTs` is an integer
strictly below the current time; at `now = expiresAtTs`, or with a missing
or non-integer `expiresAtTs`, Get returns the record unchanged without
persisting, Lock never answers 410 Gone, and Refresh (valid params,
matching config, no TTL extension requested) keeps status and expiry
unchanged instead of taking its expired-renewal branch.  (Python's
`isinstance(exp, int)` also admits booleans, handled by `is_expired`'s
`jBool` branch.) -/
theorem C10_expiry_strict (e : Env) (fs : Fs) (id : String) (q : Quote)
    (hload : QuotesStore.load fs id = some q) :
    (∀ n : Int, q.expiresAtTs = some (.jInt n) →
      (QuotesStore.is_expired e.now q = true ↔ n < e.now)) ∧
    (q.expiresAtTs = none → QuotesStore.is_expired e.now q = false) ∧
    (∀ s, q.expiresAtTs = some (.jStr s) → QuotesStore.is_expired e.now q = false) ∧
    (q.expiresAtTs = some .jNull → QuotesStore.is_expired e.now q = false) ∧
    (QuotesStore.is_expired e.now q = false → get_quote e fs id = (.ok 200 q, fs)) ∧
    (QuotesStore.is_expired e.now q = false →
      ∀ c m, (lock_quote e fs id none).1 = .err c m → c ≠ 410) ∧
    (QuotesStore.is_expired e.now q = false → q.status ≠ "locked" →
      ∀ p, validate_quote_params e.cfg (q.params.getD {}) = .ok p →
      q.configVersion = some e.cfg.version →
      ∃ q', refresh_quote e fs id false = (.ok 200 q', saveFs fs id q') ∧
        q'.status = q.status ∧ q'.expiresAtTs = q.expiresAtTs) := by
  refine ⟨?_, ?_, ?_, ?_, ?_, ?_, ?_⟩
  · intro n hn
    simp [QuotesStore.is_expired, hn]
  · intro hn
    simp [QuotesStore.is_expired, hn]
  · intro s hn
    simp [QuotesStore.is_expired, hn]
  · intro hn
    simp [QuotesStore.is_expired, hn]
  · intro hexp
    simp only [get_quote, hload]
    simp [hexp]
  · intro hexp c m h
    simp only [lock_quote, hload, hexp] at h
    by_cases hv : strOr q.requiredConfigVersion q.configVersion ≠ some e.cfg.version
    · rw [if_neg (by simp : ¬ (false = true))] at h
      rw [if_pos hv] at h
      have : (409 : Nat) = c := by
        have := congrArg respCode h
        simpa [respCode] using this
      omega
    · rw [if_neg (by simp : ¬ (false = true))] at h
      rw [if_neg hv] at h
      simp [Resp.err] at h
  · intro hexp hnl p hvalid hcfg
    simp only [refresh_quote, hload]
    rw [if_neg hnl]
    simp only [hvalid]
    simp only [hcfg]
    rw [if_neg (by simp)]
    simp only [QuotesStore.is_expired] at hexp ⊢
    simp only [hexp, Bool.false_eq_true, if_false]
    exact ⟨_, rfl, rfl, rfl⟩

theorem C10_witness :
    QuotesStore.is_expired eFix.now qBoundaryFix = false ∧
    get_quote eFix (fsOf qBoundaryFix) idFix = (.ok 200 qBoundaryFix, fsOf qBoundaryFix) ∧
    (∃ q', refresh_quote eFix (fsOf qBoundaryFix) idFix false
        = (.ok 200 q', saveFs (fsOf qBoundaryFix) idFix q') ∧
      q'.status = qBoundaryFix.status ∧ q'.expiresAtTs = qBoundaryFix.expiresAtTs) := by
  have h := C10_expiry_strict eFix (fsOf qBoundaryFix) idFix qBoundaryFix rfl
  exact ⟨rfl, h.2.2.2.2.1 rfl, h.2.2.2.2.2.2 rfl (by decide) pFix rfl rfl⟩


/-! ## C2 — lazy expiry versus locked quotes -/

/-- C2 counterexample: Get on a locked quote one second past its expiry
demotes it to "expired" and re-persists it — the source's lazy-expiry branch
(src/app.py lines 601-604) has no exception for `locked`, so the claim that
Get never changes a locked quote's status is false. -/
theorem C2_counterexample :
    qLockedExpiredFix.status = "locked" ∧
    respStatus (get_quote eFix (fsOf qLockedExpiredFix) idFix).1 = some "expired" ∧
    entryStatus ((get_quote eFix (fsOf qLockedExpiredFix) idFix).2 idFix) = some "expired" :=
  ⟨rfl, rfl, rfl⟩

/-- C2 amended: Get applies lazy expiry uniformly to every stored record,
whatever its status — including "locked": a record whose integer
`expiresAtTs` is strictly past is returned as "expired", re-signed and
re-persisted with all other fields unchanged, while a non-expired record is
returned as stored with nothing persisted. -/
theorem C2_lazy_expiry_uniform (e : Env) (fs : Fs) (id : String) (q : Quote)
    (hload : QuotesStore.load fs id = some q) :
    (QuotesStore.is_expired e.now q = true →
      ∃ q', get_quote e fs id = (.ok 200 q', saveFs fs id q') ∧
        q'.status = "expired" ∧
        q'.signature = sign_quote e.mac e.sha q' ∧
        q'.quoteId = q.quoteId ∧ q'.params = q.params ∧ q'.price = q.price ∧
        q'.computed = q.computed ∧ q'.expiresAtTs = q.expiresAtTs ∧
        q'.lockedAtTs = q.lockedAtTs) ∧
    (QuotesStore.is_expired e.now q = false → get_quote e fs id = (.ok 200 q, fs)) := by
  constructor
  · intro hexp
    simp only [get_quote, hload]
    simp only [hexp, if_true]
    exact ⟨_, rfl, rfl, rfl, rfl, rfl, rfl, rfl, rfl, rfl⟩
  · intro hexp
    simp only [get_quote, hload]
    simp [hexp]

theorem C2_witness :
    ∃ q', get_quote eFix (fsOf qLockedExpiredFix) idFix
        = (.ok 200 q', saveFs (fsOf qLockedExpiredFix) idFix q') ∧
      q'.status = "expired" ∧
      q'.signature = sign_quote eFix.mac eFix.sha q' ∧
      q'.quoteId = qLockedExpiredFix.quoteId ∧ q'.params = qLockedExpiredFix.params ∧
      q'.price = qLockedExpiredFix.price ∧ q'.computed = qLockedExpiredFix.computed ∧
      q'.expiresAtTs = qLockedExpiredFix.expiresAtTs ∧
      q'.lockedAtTs = qLockedExpiredFix.lockedAtTs :=
  (C2_lazy_expiry_uniform eFix (fsOf qLockedExpiredFix) idFix qLockedExpiredFix rfl).1 rfl


/-! ## C3 — locking an already-locked quote -/

/-- C3 counterexample: Lock on a quote that is already "locked", not yet
expired, and whose version matches the live fingerprint does not fail with
Conflict: `lock_quote` (src/app.py 676-706) never inspects the stored
status, so it answers 200, re-stamps `lockedAtTs` and overwrites
`expiresAtTs` with `now + lock_ttl` (2000 becomes 1600 here) — the record
changes and the lock-time TTL extension happens again. -/
theorem C3_counterexample :
    qLockedFix.status = "locked" ∧
    QuotesStore.is_expired eFix.now qLockedFix = false ∧
    qLockedFix.expiresAtTs = some (.jInt 2000) ∧
    respCode (lock_quote eFix (fsOf qLockedFix) idFix none).1 = 200 ∧
    respStatus (lock_quote eFix (fsOf qLockedFix) idFix none).1 = some "locked" ∧
    respExpiry (lock_quote eFix (fsOf qLockedFix) idFix none).1 = some (some (.jInt 1600)) ∧
    entryStatus ((lock_quote eFix (fsOf qLockedFix) idFix none).2 idFix) = some "locked" :=
  ⟨rfl, rfl, rfl, rfl, rfl, rfl, rfl⟩

/-- C3 amended: Lock on a stored quote that is already "locked" and not
expired does not conflict on the lock state: when the quote's
required/config version matches the live fingerprint it succeeds again
(200), re-stamps `lockedAtTs` and sets `expiresAtTs` to `now + lock_ttl`
anew — so the lock operation can extend `expiresAtTs` once per successful
Lock call, not at most once — and the only Conflict (409) Lock raises is
configuration drift, which leaves the record unchanged. -/
theorem C3_relock_extends (e : Env) (fs : Fs) (id : String) (q : Quote)
    (hload : QuotesStore.load fs id = some q) (_hlocked : q.status = "locked")
    (hexp : QuotesStore.is_expired e.now q = false) :
    (strOr q.requiredConfigVersion q.configVersion = some e.cfg.version →
      ∃ q', lock_quote e fs id none = (.ok 200 q', saveFs fs id q') ∧
        q'.status = "locked" ∧ q'.lockedAtTs = some e.now ∧
        q'.expiresAtTs = some (.jInt (e.now + e.lock_ttl)) ∧
        q'.signature = sign_quote e.mac e.sha q') ∧
    (strOr q.requiredConfigVersion q.configVersion ≠ some e.cfg.version →
      lock_quote e fs id none
        = (.err 409 "La configuración cambió; es necesario recalcular", fs)) := by
  constructor
  · intro hv
    simp only [lock_quote, hload, hexp]
    rw [if_neg (by simp : ¬ (false = true))]
    rw [if_neg (by simp [hv] : ¬ (strOr q.requiredConfigVersion q.configVersion ≠ some e.cfg.version))]
    exact ⟨_, rfl, rfl, rfl, rfl, rfl⟩
  · intro hv
    simp only [lock_quote, hload, hexp]
    rw [if_neg (by simp : ¬ (false = true))]
    rw [if_pos hv]
    simp

theorem C3_witness :
    ∃ q', lock_quote eFix (fsOf qLockedFix) idFix none
        = (.ok 200 q', saveFs (fsOf qLockedFix) idFix q') ∧
      q'.status = "locked" ∧ q'.lockedAtTs = some eFix.now ∧
      q'.expiresAtTs = some (.jInt (eFix.now + eFix.lock_ttl)) ∧
      q'.signature = sign_quote eFix.mac eFix.sha q' :=
  (C3_relock_extends eFix (fsOf qLockedFix) idFix qLockedFix rfl rfl rfl).1 rfl


/-! ## C8 — requiredConfigVersion / error are set in recalc_required but
never removed -/

/-- A quote sitting in recalc_required with both optional fields present
(as refresh's two recalc branches leave it), not expired, whose
`requiredConfigVersion` matches the live fingerprint. -/
def qRecalcFix : Quote :=
  { quoteId := idFix, status := "recalc_required", configVersion := some "v0",
    requiredConfigVersion := some "v1",
    error := some "parámetros inválidos: material inválido: (vacío)",
    params := some pFix.toRaw, expiresAtTs := some (.jInt 2000) }

/-- C8 counterexample: Lock moves this quote out of "recalc_required" to
"locked" yet the persisted record still carries `requiredConfigVersion` and
`error` — `lock_quote` never deletes them, so the fields are not "present
only while status is recalc_required". -/
theorem C8_counterexample :
    qRecalcFix.status = "recalc_required" ∧
    respCode (lock_quote eFix (fsOf qRecalcFix) idFix none).1 = 200 ∧
    respStatus (lock_quote eFix (fsOf qRecalcFix) idFix none).1 = some "locked" ∧
    respRequired (lock_quote eFix (fsOf qRecalcFix) idFix none).1 = some (some "v1") ∧
    respErrField (lock_quote eFix (fsOf qRecalcFix) idFix none).1
      = some (some "parámetros inválidos: material inválido: (vacío)") ∧
    entryStatus ((lock_quote eFix (fsOf qRecalcFix) idFix none).2 idFix) = some "locked" :=
  ⟨rfl, rfl, rfl, rfl, rfl, rfl⟩

/-- C8 amended: `requiredConfigVersion` is written only by Refresh's
config-mismatch branch and `error` only by Refresh's invalid-params branch,
both of which set status "recalc_required" at that moment; but no operation
ever deletes either field — Refresh's expired branch moving a quote back to
"estimated", and Lock, both carry any previously stored
`requiredConfigVersion` and `error` over into the persisted record, so the
fields can outlive the "recalc_required" status. -/
theorem C8_recalc_fields (e : Env) (fs : Fs) (id : String) (q : Quote)
    (hload : QuotesStore.load fs id = some q) :
    (q.status ≠ "locked" → ∀ p, validate_quote_params e.cfg (q.params.getD {}) = .ok p →
      q.configVersion ≠ some e.cfg.version →
      ∃ q', refresh_quote e fs id false = (.ok 200 q', saveFs fs id q') ∧
        q'.status = "recalc_required" ∧
        q'.requiredConfigVersion = some e.cfg.version ∧ q'.error = q.error) ∧
    (q.status ≠ "locked" → ∀ m, validate_quote_params e.cfg (q.params.getD {}) = .error m →
      ∃ q', refresh_quote e fs id false = (.ok 200 q', saveFs fs id q') ∧
        q'.status = "recalc_required" ∧
        q'.error = some ("parámetros inválidos: " ++ m) ∧
        q'.requiredConfigVersion = q.requiredConfigVersion) ∧
    (q.status ≠ "locked" → ∀ p, validate_quote_params e.cfg (q.params.getD {}) = .ok p →
      q.configVersion = some e.cfg.version → QuotesStore.is_expired e.now q = true →
      ∃ q', refresh_quote e fs id false = (.ok 200 q', saveFs fs id q') ∧
        q'.status = "estimated" ∧
        q'.requiredConfigVersion = q.requiredConfigVersion ∧ q'.error = q.error) ∧
    (QuotesStore.is_expired e.now q = false →
      strOr q.requiredConfigVersion q.configVersion = some e.cfg.version →
      ∃ q', lock_quote e fs id none = (.ok 200 q', saveFs fs id q') ∧
        q'.status = "locked" ∧
        q'.requiredConfigVersion = q.requiredConfigVersion ∧ q'.error = q.error) := by
  refine ⟨?_, ?_, ?_, ?_⟩
  · intro hnl p hvalid hdrift
    simp only [refresh_quote, hload]
    rw [if_neg hnl]
    simp only [hvalid]
    rw [if_pos hdrift]
    exact ⟨_, rfl, rfl, rfl, rfl⟩
  · intro hnl m hinvalid
    simp only [refresh_quote, hload]
    rw [if_neg hnl]
    simp only [hinvalid]
    exact ⟨_, rfl, rfl, rfl, rfl⟩
  · intro hnl p hvalid hcfg hexp
    simp only [refresh_quote, hload]
    rw [if_neg hnl]
    simp only [hvalid]
    simp only [hcfg]
    rw [if_neg (by simp)]
    simp only [QuotesStore.is_expired] at hexp ⊢
    simp only [hexp, if_true]
    exact ⟨_, rfl, rfl, rfl, rfl⟩
  · intro hexp hv
    simp only [lock_quote, hload, hexp]
    rw [if_neg (by simp : ¬ (false = true))]
    rw [if_neg (by simp [hv] : ¬ (strOr q.requiredConfigVersion q.configVersion ≠ some e.cfg.version))]
    exact ⟨_, rfl, rfl, rfl, rfl⟩

theorem C8_witness :
    ∃ q', lock_quote eFix (fsOf qRecalcFix) idFix none
        = (.ok 200 q', saveFs (fsOf qRecalcFix) idFix q') ∧
      q'.status = "locked" ∧
      q'.requiredConfigVersion = qRecalcFix.requiredConfigVersion ∧
      q'.error = qRecalcFix.error :=
  (C8_recalc_fields eFix (fsOf qRecalcFix) idFix qRecalcFix rfl).2.2.2 rfl rfl


/-! ## C5 — Refresh under configuration drift -/

/-- A quote created under fingerprint "v0" while the live config is at
"v1" (fixture for the drift branch). -/
def qDriftFix : Quote :=
  { quoteId := idFix, status := "estimated", configVersion := some "v0",
    params := some pFix.toRaw, price := some (.jInt 42),
    currency := some (.jStr "EUR"), expiresAtTs := some (.jInt 2000) }

/-- C5: Refresh on a non-locked quote with valid params whose stored
`configVersion` differs from the live fingerprint transitions it to
"recalc_required", clears `computed` to the empty mapping, sets `price` to
null, stores the live fingerprint in `requiredConfigVersion`, renews
`expiresAtTs` to `now + ttl`, stamps `refreshedAtTs`, re-signs, and
persists the result.  (A locked quote never reaches this branch — Refresh
answers 409 first, the subject of C6.) -/
theorem C5_refresh_config_drift (e : Env) (fs : Fs) (id : String) (q : Quote)
    (p : Params) (extendTtl : Bool)
    (hload : QuotesStore.load fs id = some q) (hnl : q.status ≠ "locked")
    (hvalid : validate_quote_params e.cfg (q.params.getD {}) = .ok p)
    (hdrift : q.configVersion ≠ some e.cfg.version) :
    ∃ q', refresh_quote e fs id extendTtl = (.ok 200 q', saveFs fs id q') ∧
      q'.status = "recalc_required" ∧
      q'.computed = .jObj .onil ∧
      q'.price = some .jNull ∧
      q'.requiredConfigVersion = some e.cfg.version ∧
      q'.expiresAtTs = some (.jInt (e.now + e.ttl)) ∧
      q'.refreshedAtTs = some e.now ∧
      q'.params = some p.toRaw ∧
      q'.currency = some (q.currency.getD (.jStr "EUR")) ∧
      q'.signature = sign_quote e.mac e.sha q' ∧
      verify_quote e.mac e.sha q' q'.signature = true := by
  simp only [refresh_quote, hload]
  rw [if_neg hnl]
  simp only [hvalid]
  rw [if_pos hdrift]
  refine ⟨_, rfl, rfl, rfl, rfl, rfl, rfl, rfl, rfl, rfl, rfl, ?_⟩
  exact beq_self_eq_true _

theorem C5_witness :
    qDriftFix.configVersion = some "v0" ∧ eFix.cfg.version = "v1" ∧
    (∃ q', refresh_quote eFix (fsOf qDriftFix) idFix false
        = (.ok 200 q', saveFs (fsOf qDriftFix) idFix q') ∧
      q'.status = "recalc_required" ∧
      q'.computed = .jObj .onil ∧
      q'.price = some .jNull ∧
      q'.requiredConfigVersion = some eFix.cfg.version ∧
      q'.expiresAtTs = some (.jInt (eFix.now + eFix.ttl)) ∧
      q'.refreshedAtTs = some eFix.now ∧
      q'.params = some pFix.toRaw ∧
      q'.currency = some (qDriftFix.currency.getD (.jStr "EUR")) ∧
      q'.signature = sign_quote eFix.mac eFix.sha q' ∧
      verify_quote eFix.mac eFix.sha q' q'.signature = true) :=
  ⟨rfl, rfl, C5_refresh_config_drift eFix (fsOf qDriftFix) idFix qDriftFix pFix false
    rfl (by decide) rfl (by decide)⟩


/-! ## C4 — Create: validation conditions, stamped record, error reporting -/

/-- `p` is a prefix of `s` (Python `msg.startswith(p)`), over the data
lists so that it evaluates in the kernel. -/
def strHasPre (p s : String) : Bool := p.data.isPrefixOf s.data

theorem strHasPre_append (p s : String) : strHasPre p (p ++ s) = true := by
  unfold strHasPre
  have h : (p ++ s).data = p.data ++ s.data := rfl
  rw [h]
  simp [List.isPrefixOf_iff_prefix]

/-- The validation conditions of the claim, as read off the source checks. -/
def ParamsOK (cfg : Config) (raw : RawParams) : Prop :=
  (∃ qn, pyToInt (raw.qty.getD (raw.quantity.getD (.vInt 1))) = some qn ∧ 1 ≤ qn) ∧
  (∃ inf, pyToInt (raw.infill_density.getD (.vInt 20)) = some inf ∧ 5 ≤ inf ∧ inf ≤ 100) ∧
  (pyNorm (raw.material.getD "") ≠ "" ∧
    cfg.materials.contains (pyNorm (raw.material.getD "")) = true) ∧
  (pyNorm (raw.quality.getD "") ≠ "" ∧
    cfg.qualities.contains (pyNorm (raw.quality.getD "")) = true) ∧
  (∃ pc, cfg.printers.find? (fun kv => kv.1 ==
      pyNorm (if raw.printer.getD "" = "" then "prusa_mk3s" else raw.printer.getD "")) = some pc ∧
    pc.2.enabled.getD true = true)

theorem validate_ok_iff (cfg : Config) (raw : RawParams) :
    (∃ p, validate_quote_params cfg raw = .ok p) ↔ ParamsOK cfg raw := by
  constructor
  · rintro ⟨p, hp⟩
    simp only [validate_quote_params] at hp
    cases hq : pyToInt (raw.qty.getD (raw.quantity.getD (.vInt 1))) with
    | none =>
      simp only [hq] at hp
      simp at hp
    | some qn =>
      simp only [hq] at hp
      by_cases h1 : qn < 1
      · rw [if_pos h1] at hp
        simp at hp
      · rw [if_neg h1] at hp
        cases hi : pyToInt (raw.infill_density.getD (.vInt 20)) with
        | none =>
          simp only [hi] at hp
          simp at hp
        | some inf =>
          simp only [hi] at hp
          by_cases h2 : inf < 5 ∨ inf > 100
          · rw [if_pos h2] at hp
            simp at hp
          · rw [if_neg h2] at hp
            by_cases h3 : (pyNorm (raw.material.getD "") == ""
                || !cfg.materials.contains (pyNorm (raw.material.getD ""))) = true
            · rw [if_pos h3] at hp
              simp at hp
            · rw [if_neg h3] at hp
              by_cases h4 : (pyNorm (raw.quality.getD "") == ""
                  || !cfg.qualities.contains (pyNorm (raw.quality.getD ""))) = true
              · rw [if_pos h4] at hp
                simp at hp
              · rw [if_neg h4] at hp
                cases hf : cfg.printers.find? (fun kv => kv.1 ==
                    pyNorm (if raw.printer.getD "" = "" then "prusa_mk3s" else raw.printer.getD "")) with
                | none =>
                  simp only [hf] at hp
                  simp at hp
                | some pc =>
                  simp only [hf] at hp
                  by_cases h5 : (!pc.2.enabled.getD true) = true
                  · rw [if_pos h5] at hp
                    simp at hp
                  · simp only [Bool.or_eq_true, beq_iff_eq, Bool.not_eq_true,
                      not_or] at h3 h4
                    simp only [Bool.not_eq_true] at h5
                    refine ⟨⟨qn, hq, by omega⟩, ⟨inf, hi, by omega, by omega⟩,
                      ⟨h3.1, by simpa using h3.2⟩, ⟨h4.1, by simpa using h4.2⟩,
                      ⟨pc, hf, by simpa using h5⟩⟩
  · rintro ⟨⟨qn, hq, hq1⟩, ⟨inf, hi, hi5, hi100⟩, ⟨hm1, hm2⟩, ⟨hql1, hql2⟩, ⟨pc, hf, hen⟩⟩
    have hmc : ¬ ((pyNorm (raw.material.getD "") == ""
        || !cfg.materials.contains (pyNorm (raw.material.getD ""))) = true) := by
      intro hcond
      have hcond2 : pyNorm (raw.material.getD "") = ""
          ∨ cfg.materials.contains (pyNorm (raw.material.getD "")) = false := by
        simpa using hcond
      rcases hcond2 with hl | hr
      · exact hm1 hl
      · rw [hm2] at hr
        exact absurd hr (by simp)
    have hqc : ¬ ((pyNorm (raw.quality.getD "") == ""
        || !cfg.qualities.contains (pyNorm (raw.quality.getD ""))) = true) := by
      intro hcond
      have hcond2 : pyNorm (raw.quality.getD "") = ""
          ∨ cfg.qualities.contains (pyNorm (raw.quality.getD "")) = false := by
        simpa using hcond
      rcases hcond2 with hl | hr
      · exact hql1 hl
      · rw [hql2] at hr
        exact absurd hr (by simp)
    have hec : ¬ ((!pc.2.enabled.getD true) = true) := by
      intro hcond
      rw [hen] at hcond
      simp at hcond
    simp only [validate_quote_params, hq, hi, hf]
    rw [if_neg (by omega : ¬ qn < 1)]
    rw [if_neg (by omega : ¬ (inf < 5 ∨ inf > 100))]
    rw [if_neg hmc]
    rw [if_neg hqc]
    rw [if_neg hec]
    exact ⟨_, rfl⟩

/-- The prefixes naming the offending field in validation errors. -/
def errPres : List String :=
  ["qty debe", "infill_density debe", "material inválido: ", "calidad inválida: ",
   "impresora inválida o deshabilitada: "]

theorem validate_error_prefixed (cfg : Config) (raw : RawParams) (m : String)
    (hm : validate_quote_params cfg raw = .error m) :
    (errPres.any (fun pre => strHasPre pre m)) = true := by
  simp only [validate_quote_params] at hm
  cases hq : pyToInt (raw.qty.getD (raw.quantity.getD (.vInt 1))) with
  | none =>
    simp only [hq, Except.error.injEq] at hm
    subst hm
    decide
  | some qn =>
    simp only [hq] at hm
    by_cases h1 : qn < 1
    · rw [if_pos h1] at hm
      simp only [Except.error.injEq] at hm
      subst hm
      decide
    · rw [if_neg h1] at hm
      cases hi : pyToInt (raw.infill_density.getD (.vInt 20)) with
      | none =>
        simp only [hi, Except.error.injEq] at hm
        subst hm
        decide
      | some inf =>
        simp only [hi] at hm
        by_cases h2 : inf < 5 ∨ inf > 100
        · rw [if_pos h2] at hm
          simp only [Except.error.injEq] at hm
          subst hm
          decide
        · rw [if_neg h2] at hm
          by_cases h3 : (pyNorm (raw.material.getD "") == ""
              || !cfg.materials.contains (pyNorm (raw.material.getD ""))) = true
          · rw [if_pos h3] at hm
            simp only [Except.error.injEq] at hm
            subst hm
            simp [errPres, List.any, strHasPre_append]
          · rw [if_neg h3] at hm
            by_cases h4 : (pyNorm (raw.quality.getD "") == ""
                || !cfg.qualities.contains (pyNorm (raw.quality.getD ""))) = true
            · rw [if_pos h4] at hm
              simp only [Except.error.injEq] at hm
              subst hm
              simp [errPres, List.any, strHasPre_append]
            · rw [if_neg h4] at hm
              cases hf : cfg.printers.find? (fun kv => kv.1 ==
                  pyNorm (if raw.printer.getD "" = "" then "prusa_mk3s" else raw.printer.getD "")) with
              | none =>
                simp only [hf, Except.error.injEq] at hm
                subst hm
                simp [errPres, List.any, strHasPre_append]
              | some pc =>
                simp only [hf] at hm
                by_cases h5 : (!pc.2.enabled.getD true) = true
                · rw [if_pos h5] at hm
                  simp only [Except.error.injEq] at hm
                  subst hm
                  simp [errPres, List.any, strHasPre_append]
                · rw [if_neg h5] at hm
                  simp at hm

/-- C4: Create succeeds exactly when the params name an existing material
and quality and an existing enabled printer, with quantity at least 1 and
infill density in [5, 100]; on success it returns 201 and persists a record
with status "estimated", `createdAtTs = now`,
`expiresAtTs = createdAtTs + ttl`, the current configuration fingerprint,
the normalized params and a fresh signature; on any validation failure it
returns 400 with a message whose prefix names the offending field, and
persists nothing. -/
theorem C4_create_validates (e : Env) (fs : Fs) (newId : String) (raw : RawParams)
    (computedIn : JObj) (hid : QuotesStore.validQuoteId newId = true) :
    ((∃ p, validate_quote_params e.cfg raw = .ok p) ↔ ParamsOK e.cfg raw) ∧
    (∀ p, validate_quote_params e.cfg raw = .ok p →
      ∃ q, create_quote e fs newId raw computedIn = (.ok 201 q, saveFs fs newId q) ∧
        q.status = "estimated" ∧ q.createdAtTs = some e.now ∧
        q.expiresAtTs = some (.jInt (e.now + e.ttl)) ∧
        q.configVersion = some e.cfg.version ∧ q.params = some p.toRaw ∧
        q.quoteId = newId ∧
        q.signature = sign_quote e.mac e.sha q ∧
        verify_quote e.mac e.sha q q.signature = true) ∧
    (∀ m, validate_quote_params e.cfg raw = .error m →
      create_quote e fs newId raw computedIn = (.err 400 m, fs) ∧
      (errPres.any (fun pre => strHasPre pre m)) = true) := by
  refine ⟨validate_ok_iff e.cfg raw, ?_, ?_⟩
  · intro p hp
    simp only [create_quote, hp, hid, if_true]
    refine ⟨_, rfl, rfl, rfl, rfl, rfl, rfl, rfl, rfl, ?_⟩
    exact beq_self_eq_true _
  · intro m hm
    constructor
    · simp only [create_quote, hm]
    · exact validate_error_prefixed e.cfg raw m hm

/-- A raw params mapping whose quantity is invalid (fixture for the C4
failure path). -/
def rawBadFix : RawParams := { rawFix with qty := some (.vInt 0) }

theorem C4_witness :
    (∃ q, create_quote eFix (fun _ => .missing) idFix rawFix (.ocons "price" (.jInt 7) .onil)
        = (.ok 201 q, saveFs (fun _ => .missing) idFix q) ∧
      q.status = "estimated" ∧ q.createdAtTs = some eFix.now ∧
      q.expiresAtTs = some (.jInt (eFix.now + eFix.ttl)) ∧
      q.configVersion = some eFix.cfg.version ∧ q.params = some pFix.toRaw ∧
      q.quoteId = idFix ∧
      q.signature = sign_quote eFix.mac eFix.sha q ∧
      verify_quote eFix.mac eFix.sha q q.signature = true) ∧
    (create_quote eFix (fun _ => .missing) idFix rawBadFix (.ocons "price" (.jInt 7) .onil)
        = (.err 400 "qty debe ser >= 1", fun _ => .missing) ∧
      (errPres.any (fun pre => strHasPre pre "qty debe ser >= 1")) = true) := by
  have h := C4_create_validates eFix (fun _ => .missing) idFix rawFix
    (.ocons "price" (.jInt 7) .onil) rfl
  have hbad := C4_create_validates eFix (fun _ => .missing) idFix rawBadFix
    (.ocons "price" (.jInt 7) .onil) rfl
  exact ⟨h.2.1 pFix rfl, hbad.2.2 "qty debe ser >= 1" rfl⟩


/-! ## C9 — ListQuotes cannot return items: the store has no list method -/

/-- C9: for every authorized call and every caller-supplied limit, the list
endpoint returns the generic 500 error — the clamp of the limit into
[1, 200] (line 562) is computed, but the following `quotes_store.list(...)`
call raises `AttributeError` because `QuotesStore` defines no `list` method,
and the handler's `except Exception` converts that into the 500 response.
So no authorized call ever yields the claimed paginated item list.  An
unauthorized call still gets 401. -/
theorem C9_list_quotes_always_500 (rawLimit : Option Int) :
    list_quotes true rawLimit = .err 500 "No se pudieron listar los presupuestos" ∧
    1 ≤ clamp_limit (rawLimit.getD 50) ∧ clamp_limit (rawLimit.getD 50) ≤ 200 ∧
    list_quotes false rawLimit = .err 401 "No autorizado" := by
  refine ⟨rfl, ?_, ?_, rfl⟩ <;> simp [clamp_limit]


/-! ## C1 — signature integrity -/

/- Changing one signed field with a different serialized form changes the
signed message: one lemma per signed component, each by peeling the equal
surrounding components off the joined message with append cancellation. -/

theorem sigMessage_ne_quoteId (sha : String → String) (q : Quote) (x y : String)
    (h : x ≠ y) :
    sigMessage sha { q with quoteId := x } ≠ sigMessage sha { q with quoteId := y } := by
  intro he
  apply h
  simp only [sigMessage, msgParts, joinBar] at he
  exact strAppend_cancel_right he

theorem sigMessage_ne_status (sha : String → String) (q : Quote) (x y : String)
    (h : x ≠ y) :
    sigMessage sha { q with status := x } ≠ sigMessage sha { q with status := y } := by
  intro he
  apply h
  simp only [sigMessage, msgParts, joinBar] at he
  have h1 := strAppend_cancel_left he
  have h2 := strAppend_cancel_left h1
  exact strAppend_cancel_right h2

theorem sigMessage_ne_price (sha : String → String) (q : Quote) (x y : Option JVal)
    (h : strOfOpt x ≠ strOfOpt y) :
    sigMessage sha { q with price := x } ≠ sigMessage sha { q with price := y } := by
  intro he
  apply h
  simp only [sigMessage, msgParts, joinBar] at he
  have h1 := strAppend_cancel_left he
  have h2 := strAppend_cancel_left h1
  have h3 := strAppend_cancel_left h2
  have h4 := strAppend_cancel_left h3
  exact strAppend_cancel_right h4

theorem sigMessage_ne_currency (sha : String → String) (q : Quote) (x y : Option JVal)
    (h : strOfOpt x ≠ strOfOpt y) :
    sigMessage sha { q with currency := x } ≠ sigMessage sha { q with currency := y } := by
  intro he
  apply h
  simp only [sigMessage, msgParts, joinBar] at he
  have h1 := strAppend_cancel_left he
  have h2 := strAppend_cancel_left h1
  have h3 := strAppend_cancel_left h2
  have h4 := strAppend_cancel_left h3
  have h5 := strAppend_cancel_left h4
  have h6 := strAppend_cancel_left h5
  exact strAppend_cancel_right h6

theorem sigMessage_ne_configVersion (sha : String → String) (q : Quote)
    (x y : Option String) (h : x.getD "" ≠ y.getD "") :
    sigMessage sha { q with configVersion := x }
      ≠ sigMessage sha { q with configVersion := y } := by
  intro he
  apply h
  simp only [sigMessage, msgParts, joinBar] at he
  have h1 := strAppend_cancel_left he
  have h2 := strAppend_cancel_left h1
  have h3 := strAppend_cancel_left h2
  have h4 := strAppend_cancel_left h3
  have h5 := strAppend_cancel_left h4
  have h6 := strAppend_cancel_left h5
  have h7 := strAppend_cancel_left h6
  have h8 := strAppend_cancel_left h7
  exact strAppend_cancel_right h8

theorem sigMessage_ne_expiresAtTs (sha : String → String) (q : Quote) (n m : Int)
    (h : n ≠ m) :
    sigMessage sha { q with expiresAtTs := some (.jInt n) }
      ≠ sigMessage sha { q with expiresAtTs := some (.jInt m) } := by
  intro he
  apply h
  simp only [sigMessage, msgParts, joinBar] at he
  have h1 := strAppend_cancel_left he
  have h2 := strAppend_cancel_left h1
  have h3 := strAppend_cancel_left h2
  have h4 := strAppend_cancel_left h3
  have h5 := strAppend_cancel_left h4
  have h6 := strAppend_cancel_left h5
  have h7 := strAppend_cancel_left h6
  have h8 := strAppend_cancel_left h7
  have h9 := strAppend_cancel_left h8
  have h10 := strAppend_cancel_left h9
  have h11 := strAppend_cancel_right h10
  exact intStr_injective h11

theorem sigMessage_ne_params (sha : String → String) (hsha : Function.Injective sha)
    (q : Quote) (x y : Option RawParams) (h : paramsJson x ≠ paramsJson y) :
    sigMessage sha { q with params := x } ≠ sigMessage sha { q with params := y } := by
  intro he
  apply h
  simp only [sigMessage, msgParts, joinBar] at he
  have h1 := strAppend_cancel_left he
  have h2 := strAppend_cancel_left h1
  have h3 := strAppend_cancel_left h2
  have h4 := strAppend_cancel_left h3
  have h5 := strAppend_cancel_left h4
  have h6 := strAppend_cancel_left h5
  have h7 := strAppend_cancel_left h6
  have h8 := strAppend_cancel_left h7
  have h9 := strAppend_cancel_left h8
  have h10 := strAppend_cancel_left h9
  have h11 := strAppend_cancel_left h10
  have h12 := strAppend_cancel_left h11
  exact hsha (strAppend_cancel_right h12)

theorem sigMessage_ne_computed (sha : String → String) (hsha : Function.Injective sha)
    (q : Quote) (x y : JVal) (h : stable_json x ≠ stable_json y) :
    sigMessage sha { q with computed := x } ≠ sigMessage sha { q with computed := y } := by
  intro he
  apply h
  simp only [sigMessage, msgParts, joinBar] at he
  have h1 := strAppend_cancel_left he
  have h2 := strAppend_cancel_left h1
  have h3 := strAppend_cancel_left h2
  have h4 := strAppend_cancel_left h3
  have h5 := strAppend_cancel_left h4
  have h6 := strAppend_cancel_left h5
  have h7 := strAppend_cancel_left h6
  have h8 := strAppend_cancel_left h7
  have h9 := strAppend_cancel_left h8
  have h10 := strAppend_cancel_left h9
  have h11 := strAppend_cancel_left h10
  have h12 := strAppend_cancel_left h11
  have h13 := strAppend_cancel_left h12
  have h14 := strAppend_cancel_left h13
  exact hsha h14


def fsEmpty : Fs := fun _ => .missing

/-- The computed mapping whose price is the *string* "None" (fixture for the
str-aliasing counterexample). -/
def cmpPriceNone : JObj := .ocons "price" (.jStr "None") .onil

/-- The record Create persists for `cmpPriceNone`. -/
def qCreatedPriceStr : Quote :=
  (respQuote (create_quote eFix fsEmpty idFix rawFix cmpPriceNone).1).getD {}

/-- `qCreatedPriceStr` with its price tampered from the string "None" to
JSON null, without re-signing. -/
def qTamperedNull : Quote := { qCreatedPriceStr with price := some .jNull }

set_option maxRecDepth 8000 in
/-- C1 counterexample: a record persisted by Create whose price is the
string "None"; replacing that price by null without re-signing leaves
verification succeeding, because `sign_quote` serializes the price with
Python `str()` and `str(None) = "None" = str("None")`: the signed message —
the input to the HMAC — is unchanged, so the claim that changing any signed
field without re-signing makes verification fail is false. -/
theorem C1_counterexample :
    create_quote eFix fsEmpty idFix rawFix cmpPriceNone
      = (.ok 201 qCreatedPriceStr, saveFs fsEmpty idFix qCreatedPriceStr) ∧
    qCreatedPriceStr.price = some (.jStr "None") ∧
    qTamperedNull.price = some .jNull ∧
    qCreatedPriceStr.price ≠ qTamperedNull.price ∧
    strOfOpt qCreatedPriceStr.price = strOfOpt qTamperedNull.price ∧
    sigMessage eFix.sha qTamperedNull = sigMessage eFix.sha qCreatedPriceStr ∧
    verify_quote eFix.mac eFix.sha qCreatedPriceStr qCreatedPriceStr.signature = true ∧
    verify_quote eFix.mac eFix.sha qTamperedNull qCreatedPriceStr.signature = true :=
  ⟨rfl, rfl, rfl,
   fun h => Option.noConfusion
     (show some (JVal.jStr "None") = some JVal.jNull from h)
     (fun h3 => JVal.noConfusion h3),
   rfl, rfl, rfl, rfl⟩

/-- C1 amended: immediately after any lifecycle write (Create, Get's
lazy-expiry path, every Refresh persisting branch, Lock) the record
verifies against its stored signature; and changing a signed field without
re-signing makes verification fail exactly when the change alters the
serialized signing message — distinct quoteId or status strings, distinct
integer expiresAtTs values, and distinct serialized configVersion, price,
currency, params or computed values are all detected (the latter two up to
collision-freeness of the hash, taken as injectivity here), but a change
whose Python-str/canonical-JSON serialization coincides (price null versus
the string "None") leaves verification succeeding, as the counterexample
shows. -/
theorem C1_signature_integrity (e : Env) (hmac : Function.Injective e.mac)
    (hsha : Function.Injective e.sha) :
    (∀ fs newId raw comp q fs2,
      create_quote e fs newId raw comp = (.ok 201 q, fs2) →
      verify_quote e.mac e.sha q q.signature = true ∧ fs2 = saveFs fs newId q) ∧
    (∀ fs id q, QuotesStore.load fs id = some q →
      QuotesStore.is_expired e.now q = true →
      ∃ q', get_quote e fs id = (.ok 200 q', saveFs fs id q') ∧
        verify_quote e.mac e.sha q' q'.signature = true) ∧
    (∀ fs id ext r q', refresh_quote e fs id ext = (.ok 200 q', r) →
      verify_quote e.mac e.sha q' q'.signature = true ∧ r = saveFs fs id q') ∧
    (∀ fs id sig r q', lock_quote e fs id sig = (.ok 200 q', r) →
      verify_quote e.mac e.sha q' q'.signature = true ∧ r = saveFs fs id q') ∧
    (∀ q1 q2 : Quote, sigMessage e.sha q1 ≠ sigMessage e.sha q2 →
      verify_quote e.mac e.sha q2 (sign_quote e.mac e.sha q1) = false) ∧
    (∀ (q : Quote) (x y : String), x ≠ y →
      verify_quote e.mac e.sha { q with quoteId := x }
        (sign_quote e.mac e.sha { q with quoteId := y }) = false) ∧
    (∀ (q : Quote) (x y : String), x ≠ y →
      verify_quote e.mac e.sha { q with status := x }
        (sign_quote e.mac e.sha { q with status := y }) = false) ∧
    (∀ (q : Quote) (x y : Option JVal), strOfOpt x ≠ strOfOpt y →
      verify_quote e.mac e.sha { q with price := x }
        (sign_quote e.mac e.sha { q with price := y }) = false) ∧
    (∀ (q : Quote) (x y : Option JVal), strOfOpt x ≠ strOfOpt y →
      verify_quote e.mac e.sha { q with currency := x }
        (sign_quote e.mac e.sha { q with currency := y }) = false) ∧
    (∀ (q : Quote) (x y : Option String), x.getD "" ≠ y.getD "" →
      verify_quote e.mac e.sha { q with configVersion := x }
        (sign_quote e.mac e.sha { q with configVersion := y }) = false) ∧
    (∀ (q : Quote) (n m : Int), n ≠ m →
      verify_quote e.mac e.sha { q with expiresAtTs := some (.jInt n) }
        (sign_quote e.mac e.sha { q with expiresAtTs := some (.jInt m) }) = false) ∧
    (∀ (q : Quote) (x y : Option RawParams), paramsJson x ≠ paramsJson y →
      verify_quote e.mac e.sha { q with params := x }
        (sign_quote e.mac e.sha { q with params := y }) = false) ∧
    (∀ (q : Quote) (x y : JVal), stable_json x ≠ stable_json y →
      verify_quote e.mac e.sha { q with computed := x }
        (sign_quote e.mac e.sha { q with computed := y }) = false) := by
  have hver : ∀ q1 q2 : Quote, sigMessage e.sha q1 ≠ sigMessage e.sha q2 →
      verify_quote e.mac e.sha q2 (sign_quote e.mac e.sha q1) = false := by
    intro q1 q2 hne
    unfold verify_quote sign_quote
    rw [beq_eq_false_iff_ne]
    intro heq
    exact hne (hmac heq).symm
  refine ⟨?_, ?_, ?_, ?_, hver, ?_, ?_, ?_, ?_, ?_, ?_, ?_, ?_⟩
  · intro fs newId raw comp q fs2 h
    unfold create_quote at h
    split at h
    · exact absurd h (by simp)
    · split at h
      · cases h
        exact ⟨beq_self_eq_true _, rfl⟩
      · exact absurd h (by simp)
  · intro fs id q hload hexp
    simp only [get_quote, hload, hexp, if_true]
    exact ⟨_, rfl, beq_self_eq_true _⟩
  · intro fs id ext r q' h
    cases hload : QuotesStore.load fs id with
    | none =>
      simp only [refresh_quote, hload] at h
      exact absurd h (by simp)
    | some q =>
      simp only [refresh_quote, hload] at h
      by_cases hlk : q.status = "locked"
      · rw [if_pos hlk] at h
        exact absurd h (by simp)
      · rw [if_neg hlk] at h
        cases hval : validate_quote_params e.cfg (q.params.getD {}) with
        | error m =>
          simp only [hval] at h
          cases h
          exact ⟨beq_self_eq_true _, rfl⟩
        | ok p =>
          simp only [hval] at h
          by_cases hcfg : ({ q with params := some p.toRaw } : Quote).configVersion
              ≠ some e.cfg.version
          · rw [if_pos hcfg] at h
            cases h
            exact ⟨beq_self_eq_true _, rfl⟩
          · rw [if_neg hcfg] at h
            by_cases hex : QuotesStore.is_expired e.now
                ({ q with params := some p.toRaw } : Quote) = true
            · rw [if_pos hex] at h
              cases h
              exact ⟨beq_self_eq_true _, rfl⟩
            · rw [if_neg hex] at h
              cases h
              exact ⟨beq_self_eq_true _, rfl⟩
  · intro fs id sig r q' h
    cases hload : QuotesStore.load fs id with
    | none =>
      simp only [lock_quote, hload] at h
      exact absurd h (by simp)
    | some q =>
      simp only [lock_quote, hload] at h
      by_cases hex : QuotesStore.is_expired e.now q = true
      · rw [if_pos hex] at h
        exact absurd h (by simp)
      · rw [if_neg hex] at h
        by_cases hsig : (sig.getD "" != ""
            && !verify_quote e.mac e.sha q (sig.getD "")) = true
        · rw [if_pos hsig] at h
          exact absurd h (by simp)
        · rw [if_neg hsig] at h
          by_cases hv : strOr q.requiredConfigVersion q.configVersion ≠ some e.cfg.version
          · rw [if_pos hv] at h
            exact absurd h (by simp)
          · rw [if_neg hv] at h
            cases h
            exact ⟨beq_self_eq_true _, rfl⟩
  · intro q x y h
    exact hver _ _ (Ne.symm (sigMessage_ne_quoteId e.sha q x y h))
  · intro q x y h
    exact hver _ _ (Ne.symm (sigMessage_ne_status e.sha q x y h))
  · intro q x y h
    exact hver _ _ (Ne.symm (sigMessage_ne_price e.sha q x y h))
  · intro q x y h
    exact hver _ _ (Ne.symm (sigMessage_ne_currency e.sha q x y h))
  · intro q x y h
    exact hver _ _ (Ne.symm (sigMessage_ne_configVersion e.sha q x y h))
  · intro q n m h
    exact hver _ _ (Ne.symm (sigMessage_ne_expiresAtTs e.sha q n m h))
  · intro q x y h
    exact hver _ _ (Ne.symm (sigMessage_ne_params e.sha hsha q x y h))
  · intro q x y h
    exact hver _ _ (Ne.symm (sigMessage_ne_computed e.sha hsha q x y h))

theorem C1_witness :
    verify_quote eFix.mac eFix.sha qCreatedPriceStr qCreatedPriceStr.signature = true ∧
    verify_quote eFix.mac eFix.sha { qDriftFix with price := some (.jStr "cheap") }
      (sign_quote eFix.mac eFix.sha { qDriftFix with price := some (.jInt 42) }) = false ∧
    verify_quote eFix.mac eFix.sha { qDriftFix with expiresAtTs := some (.jInt 9999) }
      (sign_quote eFix.mac eFix.sha { qDriftFix with expiresAtTs := some (.jInt 2000) })
      = false := by
  have h := C1_signature_integrity eFix (fun a b hab => hab) (fun a b hab => hab)
  refine ⟨?_, ?_, ?_⟩
  · exact (h.1 fsEmpty idFix rawFix cmpPriceNone qCreatedPriceStr
      (saveFs fsEmpty idFix qCreatedPriceStr) rfl).1
  · exact h.2.2.2.2.2.2.2.1 qDriftFix (some (.jStr "cheap")) (some (.jInt 42)) (by decide)
  · exact h.2.2.2.2.2.2.2.2.2.2.1 qDriftFix 9999 2000 (by decide)

end QuoteEngine
